import Mathlib

/-!
Shallow embedding of `src/ml_app/app/models/time_series.py`: a
partition-fit-merge forecasting pipeline.  Dataframes are modelled as a
column-name list together with positionally aligned value rows; the external
forecasting library (Prophet) is modelled as an opaque record of fallible
operations (`ProphetSpec`), since its internals are out of scope.  The two
functions of the source, `create_all_time_series` and
`create_single_time_series`, are translated step by step.
-/

deriving instance DecidableEq for Except

namespace TS

/-- A cell of a dataframe: a number, a string (entity ids), or a missing
value (pandas NaN / None). -/
inductive Value where
  | num : Int → Value
  | str : String → Value
  | null : Value
deriving DecidableEq, Repr

abbrev Row := List Value

/-- A record in pandas `to_dict(orient='records')` form: key/value pairs. -/
abbrev RecRow := List (String × Value)

/-- A pandas dataframe: named columns and positionally aligned rows. -/
structure DataFrame where
  cols : List String
  rows : List Row
deriving DecidableEq, Repr

/-- Index of the first occurrence of an element in a list. -/
def idxOf? {α : Type} [DecidableEq α] (a : α) : List α → Option Nat
  | [] => none
  | b :: t => if b = a then some 0 else (idxOf? a t).map (· + 1)

/-- Cell at position `i` of a row (`null` when out of range, matching a
misaligned frame reading as missing). -/
def cellAt (r : Row) (i : Nat) : Value := r.getD i Value.null

/-- `df[c]` as a list of values, `none` when the column is absent. -/
def DataFrame.getCol (df : DataFrame) (c : String) : Option (List Value) :=
  (idxOf? c df.cols).map (fun i => df.rows.map (fun r => cellAt r i))

/-- `df[c]`, raising `KeyError` when the column is absent. -/
def getColE (df : DataFrame) (c : String) : Except String (List Value) :=
  match df.getCol c with
  | some vs => Except.ok vs
  | none => Except.error ("KeyError: " ++ c)

/-- `df[[c1, ..., cn]]`: column projection (a copy), `KeyError` when a
requested column is absent. -/
def DataFrame.select (df : DataFrame) (cs : List String) : Except String DataFrame := do
  let is ← cs.mapM (fun c =>
    match idxOf? c df.cols with
    | some i => Except.ok i
    | none => Except.error ("KeyError: " ++ c))
  pure ⟨cs, df.rows.map (fun r => is.map (fun i => cellAt r i))⟩

/-- `df.rename(mapping, axis=1)`: simultaneous column renaming. -/
def renMap (ps : List (String × String)) (s : String) : String :=
  match ps.find? (fun p => decide (p.1 = s)) with
  | some p => p.2
  | none => s

def DataFrame.renameCols (df : DataFrame) (f : String → String) : DataFrame :=
  ⟨df.cols.map f, df.rows⟩

/-- Missing values become 0 (`fillna(0)` on one column). -/
def fillVal (v : Value) : Value := if v = Value.null then Value.num 0 else v

/-- `df[c] = df[c].fillna(0)`; no-op when the column is absent. -/
def DataFrame.fillna (df : DataFrame) (c : String) : DataFrame :=
  match idxOf? c df.cols with
  | some i => ⟨df.cols, df.rows.map (fun r => r.set i (fillVal (cellAt r i)))⟩
  | none => df

/-- `df[c] = v` with a scalar `v`: broadcast to every row, appending the
column when it is new. -/
def DataFrame.setCol (df : DataFrame) (c : String) (v : Value) : DataFrame :=
  match idxOf? c df.cols with
  | some i => ⟨df.cols, df.rows.map (fun r => r.set i v)⟩
  | none => ⟨df.cols ++ [c], df.rows.map (fun r => r ++ [v])⟩

/-- `groupby(c).get_group(v)`: the rows whose `c` cell equals `v`, in their
original order. -/
def DataFrame.getGroup (df : DataFrame) (c : String) (v : Value) : DataFrame :=
  match idxOf? c df.cols with
  | some i => ⟨df.cols, df.rows.filter (fun r => decide (cellAt r i = v))⟩
  | none => df

/-- Distinct elements of a list, keeping first occurrences in order
(`seen` accumulates the elements already emitted). -/
def dedupFirstAux {α : Type} [DecidableEq α] (seen : List α) : List α → List α
  | [] => []
  | a :: t => if a ∈ seen then dedupFirstAux seen t else a :: dedupFirstAux (a :: seen) t

/-- Distinct elements of a list, keeping first occurrences in order. -/
def dedupFirst {α : Type} [DecidableEq α] (l : List α) : List α :=
  dedupFirstAux [] l

/-- The group keys of `groupby(c)`: the distinct non-missing values of
column `c` — pandas `groupby` silently drops rows whose key is NaN/None, so
`Value.null` is never a group key.  (pandas additionally sorts the keys;
only the set of keys and the per-key rows are observable downstream, so
first-occurrence order is used here.) -/
def DataFrame.groupKeys (df : DataFrame) (c : String) : List Value :=
  dedupFirst (((df.getCol c).getD []).filter (fun v => decide (v ≠ Value.null)))

/-- `df.drop(cs, axis=1)`: removes the named columns, `KeyError` when any
of them is absent (pandas default `errors='raise'`). -/
def DataFrame.dropCols (df : DataFrame) (cs : List String) : Except String DataFrame :=
  if ∀ c ∈ cs, c ∈ df.cols then
    Except.ok ⟨df.cols.filter (fun c => decide (c ∉ cs)),
      df.rows.map (fun r =>
        ((df.cols.zip r).filter (fun p => decide (p.1 ∉ cs))).map (fun p => p.2))⟩
  else Except.error "KeyError: drop"

/-- `df.to_dict(orient='records')`. -/
def DataFrame.toRecords (df : DataFrame) : List RecRow :=
  df.rows.map (fun r => df.cols.enum.map (fun p => (p.2, cellAt r p.1)))

/-- `pd.DataFrame(records)`: columns are the record keys in first-appearance
order, absent keys read as missing. -/
def recordsToFrame (recs : List RecRow) : DataFrame :=
  let cs := dedupFirst ((recs.map (fun r => r.map (fun p => p.1))).flatten)
  ⟨cs, recs.map (fun r => cs.map (fun c =>
    match r.find? (fun p => decide (p.1 = c)) with
    | some p => p.2
    | none => Value.null))⟩

/-- Rows aligned with the column list (the pandas invariant). -/
def Aligned (df : DataFrame) : Prop := ∀ r ∈ df.rows, r.length = df.cols.length

instance (df : DataFrame) : Decidable (Aligned df) := by
  unfold Aligned; infer_instance

/-! ## The forecasting model (external library, opaque) -/

/-- The configuration the worker assembles on its Prophet instance:
constructor keyword arguments, then `add_seasonality`, then
`add_country_holidays`. -/
structure ModelConfig where
  seasonality_mode : String
  weekly_seasonality : Bool
  daily_seasonality : Bool
  yearly_seasonality : Bool
  growth : String
  changepoint_prior_scale : Rat
  seasonalities : List (String × Rat × Nat)
  country_holidays : Option String
deriving DecidableEq, Repr

/-- `Prophet(seasonality_mode='multiplicative', weekly_seasonality=False,
daily_seasonality=False, yearly_seasonality=True, growth='logistic',
changepoint_prior_scale=0.5)`. -/
def prophetInit : ModelConfig :=
  ⟨"multiplicative", false, false, true, "logistic", (1 : Rat) / 2, [], none⟩

def ModelConfig.addSeasonality (m : ModelConfig) (nm : String) (period : Rat)
    (order : Nat) : ModelConfig :=
  { m with seasonalities := m.seasonalities ++ [(nm, period, order)] }

def ModelConfig.addCountryHolidays (m : ModelConfig) (cn : String) : ModelConfig :=
  { m with country_holidays := some cn }

/-- The model configuration built by `create_single_time_series`:
`add_seasonality(name='monthly', period=30.5, fourier_order=5)` and
`add_country_holidays(country_name='Russia')` on top of the constructor. -/
def prophetModel : ModelConfig :=
  (prophetInit.addSeasonality "monthly" ((61 : Rat) / 2) 5).addCountryHolidays "Russia"

/-- `model.fit(df_ts, iter=2000)`: the solver iteration cap. -/
def fitIterCap : Nat := 2000

/-- The external forecasting library as a black box: fitting and prediction
may fail for reasons outside this code (non-convergence, degenerate data);
`nextDate` is the one period `make_future_dataframe(periods=1)` appends;
`outCols` is the fixed schema of `model.predict` output and `predictRows`
its row contents. -/
structure ProphetSpec where
  fit : ModelConfig → Nat → DataFrame → Except String Unit
  nextDate : ModelConfig → DataFrame → Except String Value
  outCols : List String
  predictRows : ModelConfig → DataFrame → DataFrame → Except String (List Row)

/-! ## The Forecast Worker (`create_single_time_series`) -/

/-- Maximum of the numeric values of a column (`Series.max`), `none` when
there is none. -/
def vmaxAux : List Value → Option Int
  | [] => none
  | Value.num n :: t =>
    some (match vmaxAux t with
      | some m => max n m
      | none => n)
  | _ :: t => vmaxAux t

/-- `df_ts['y'].max() * 2`, the saturation cap (missing when the column has
no numeric value, as NaN would be). -/
def capOf (yc : List Value) : Value :=
  match vmaxAux yc with
  | some m => Value.num (2 * m)
  | none => Value.null

/-- `df_ts['cap'] = df_ts['y'].max() * 2; df_ts['floor'] = 1`: the in-place
mutation of the worker's frame before fitting. -/
def attachBounds (df : DataFrame) (yc : List Value) : DataFrame :=
  (df.setCol "cap" (capOf yc)).setCol "floor" (Value.num 1)

/-- `df_ts[uid].unique().tolist()[0]`: the first value of the uid column. -/
def uidValue (df : DataFrame) (uid : String) : Option Value :=
  (df.getCol uid).bind List.head?

/-- `model.make_future_dataframe(periods=1)` followed by attaching the same
cap and floor: the historical dates plus one more period, with
`cap = df_ts['y'].max() * 2` and `floor = 1` broadcast. -/
def futureFrame (P : ProphetSpec) (df2 : DataFrame) : Except String DataFrame := do
  let hist ← getColE df2 "ds"
  let nd ← P.nextDate prophetModel df2
  let yc ← getColE df2 "y"
  pure (((DataFrame.mk ["ds"] ((hist ++ [nd]).map (fun v => [v]))).setCol
    "cap" (capOf yc)).setCol "floor" (Value.num 1))

/-- The body of the worker's `try` block: fit, build the future frame,
predict, attach the uid, drop the caller's columns, and convert to
records.  Any step may raise. -/
def tryBody (P : ProphetSpec) (df2 : DataFrame) (uid : String) (uv : Value)
    (dc : List String) : Except String (List RecRow) := do
  let _ ← P.fit prophetModel fitIterCap df2
  let dfFuture ← futureFrame P df2
  let prows ← P.predictRows prophetModel df2 dfFuture
  let dfPreds ← ((DataFrame.mk P.outCols prows).setCol uid uv).dropCols dc
  pure dfPreds.toRecords

/-- `create_single_time_series(df_ts, uid, ts_drop_cols)`.  The uid lookup
and the cap/floor attachment happen before the `try`, so their errors
propagate; every error inside the `try` degrades to the empty record list.
The mutated input frame is returned alongside the records to make the
worker's in-place column additions observable. -/
def create_single_time_series (P : ProphetSpec) (dfTs : DataFrame) (uid : String)
    (dc : List String) : Except String (DataFrame × List RecRow) := do
  let uv ← match uidValue dfTs uid with
    | some v => Except.ok v
    | none => Except.error "IndexError: uid"
  let yc ← getColE dfTs "y"
  let df2 := attachBounds dfTs yc
  match tryBody P df2 uid uv dc with
  | Except.ok recs => pure (df2, recs)
  | Except.error _ => pure (df2, [])

/-! ## The Pipeline Orchestrator (`create_all_time_series`) -/

/-- The orchestrator's setup: project to the three columns, rename
`time_index → 'ds'` and `target → 'y'`, fill missing targets with 0.
No catch-all: a missing column raises to the caller. -/
def prepare (df : DataFrame) (uid ti tg : String) : Except String DataFrame := do
  let p ← df.select [uid, ti, tg]
  pure ((p.renameCols (renMap [(ti, "ds"), (tg, "y")])).fillna "y")

/-- The closing rename `{'ds': time_index, 'y': target}`. -/
def outRename (ti tg : String) : String → String :=
  renMap [("ds", ti), ("y", tg)]

/-- `create_all_time_series(df, uid, time_index, target, ts_drop_cols)`.
Returns the caller's frame (unchanged: the projection copies) together with
the assembled result table. -/
def create_all_time_series (P : ProphetSpec) (df : DataFrame) (uid ti tg : String)
    (dc : List String) : Except String (DataFrame × DataFrame) := do
  let dfTs ← prepare df uid ti tg
  let outs ← (dfTs.groupKeys uid).mapM
    (fun g => create_single_time_series P (dfTs.getGroup uid g) uid dc)
  let records := (outs.map (fun o => o.2)).flatten
  pure (df, (recordsToFrame records).renameCols (outRename ti tg))

/-- The shape `prepare` gives the grouped frame when the three requested
columns sit at indices `iu`, `it`, `ig` of the input: three canonical
columns, target filled. -/
def preparedFrame (df : DataFrame) (uid : String) (iu it ig : Nat) : DataFrame :=
  ⟨[uid, "ds", "y"],
   df.rows.map (fun r => [cellAt r iu, cellAt r it, fillVal (cellAt r ig)])⟩

/-! ## Concrete instances used to exercise the pipeline -/

/-- A well-behaved stand-in for the external library: fitting always
succeeds, prediction echoes the future dates and emits fixed auxiliary
columns. -/
def P0 : ProphetSpec where
  fit := fun _ _ _ => Except.ok ()
  nextDate := fun _ _ => Except.ok (Value.num 99)
  outCols := ["ds", "y", "yhat", "trend"]
  predictRows := fun _ _ f =>
    Except.ok (f.rows.map (fun r => [cellAt r 0, Value.num 1, Value.num 2, Value.num 3]))

/-- A stand-in whose fitting always fails (degenerate series). -/
def Pfail : ProphetSpec where
  fit := fun _ _ _ => Except.error "non-convergence"
  nextDate := fun _ _ => Except.ok (Value.num 99)
  outCols := ["ds", "y", "yhat", "trend"]
  predictRows := fun _ _ f =>
    Except.ok (f.rows.map (fun r => [cellAt r 0, Value.num 1, Value.num 2, Value.num 3]))

/-- A stand-in whose fitting fails exactly on entity B's single-row series. -/
def Psel : ProphetSpec where
  fit := fun _ _ d => if d.rows.length ≤ 1 then Except.error "too short" else Except.ok ()
  nextDate := fun _ _ => Except.ok (Value.num 99)
  outCols := ["ds", "y", "yhat", "trend"]
  predictRows := fun _ _ f =>
    Except.ok (f.rows.map (fun r => [cellAt r 0, Value.num 1, Value.num 2, Value.num 3]))

/-- A small input dataset: entity A with a missing target at month 1,
entity B with one row. -/
def dfEx : DataFrame :=
  ⟨["item", "month", "sales"],
   [[Value.str "A", Value.num 1, Value.null],
    [Value.str "A", Value.num 2, Value.num 5],
    [Value.str "B", Value.num 1, Value.num 7]]⟩

/-- An empty dataset that still has the three required columns. -/
def dfEmpty : DataFrame := ⟨["item", "month", "sales"], []⟩

/-- A dataset whose first row has a missing entity id. -/
def dfNull : DataFrame :=
  ⟨["item", "month", "sales"],
   [[Value.null, Value.num 1, Value.num 2],
    [Value.str "A", Value.num 1, Value.num 3]]⟩

/-- A one-entity, one-row grouped series in the shape the orchestrator hands
to a worker. -/
def dfG1 : DataFrame :=
  ⟨["item", "ds", "y"], [[Value.str "A", Value.num 1, Value.num 3]]⟩

/-- The records `P0` produces for `dfG1` when `trend` is dropped. -/
def recsT : List RecRow :=
  [[("ds", Value.num 1), ("y", Value.num 1), ("yhat", Value.num 2),
    ("item", Value.str "A")],
   [("ds", Value.num 99), ("y", Value.num 1), ("yhat", Value.num 2),
    ("item", Value.str "A")]]

/-- The first record of `recsT`. -/
def recT0 : RecRow :=
  [("ds", Value.num 1), ("y", Value.num 1), ("yhat", Value.num 2),
   ("item", Value.str "A")]

/-- The records `P0` produces for `dfG1` (two rows: one historical month plus
one future month). -/
def recsG1 : List RecRow :=
  [[("ds", Value.num 1), ("y", Value.num 1), ("yhat", Value.num 2),
    ("trend", Value.num 3), ("item", Value.str "A")],
   [("ds", Value.num 99), ("y", Value.num 1), ("yhat", Value.num 2),
    ("trend", Value.num 3), ("item", Value.str "A")]]

/-- The result table `P0` yields on `dfNull`: only entity A's two rows —
the row with the missing entity id contributes nothing. -/
def resNull : DataFrame :=
  ⟨["month", "sales", "yhat", "trend", "item"],
   [[Value.num 1, Value.num 1, Value.num 2, Value.num 3, Value.str "A"],
    [Value.num 99, Value.num 1, Value.num 2, Value.num 3, Value.str "A"]]⟩

/-- The result table `P0` yields on `dfEx` with no dropped columns. -/
def resEx : DataFrame :=
  ⟨["month", "sales", "yhat", "trend", "item"],
   [[Value.num 1, Value.num 1, Value.num 2, Value.num 3, Value.str "A"],
    [Value.num 2, Value.num 1, Value.num 2, Value.num 3, Value.str "A"],
    [Value.num 99, Value.num 1, Value.num 2, Value.num 3, Value.str "A"],
    [Value.num 1, Value.num 1, Value.num 2, Value.num 3, Value.str "B"],
    [Value.num 99, Value.num 1, Value.num 2, Value.num 3, Value.str "B"]]⟩

/-! ## Helper lemmas -/

theorem ok_bind {α β : Type} (a : α) (f : α → Except String β) :
    (Except.ok a >>= f) = f a := rfl

theorem error_bind {α β : Type} (e : String) (f : α → Except String β) :
    ((Except.error e : Except String α) >>= f) = Except.error e := rfl

theorem mapM_ok_of_all {α β : Type} (f : α → Except String β) (g : α → β) :
    ∀ l : List α, (∀ a ∈ l, f a = Except.ok (g a)) → l.mapM f = Except.ok (l.map g) := by
  intro l
  induction l with
  | nil => intro _; rw [List.mapM_nil]; rfl
  | cons a t ih =>
    intro h
    rw [List.mapM_cons, h a (by simp), ih (fun b hb => h b (by simp [hb]))]
    rfl

theorem mapM_ok_mem {α β : Type} (f : α → Except String β) :
    ∀ (l : List α) (outs : List β), l.mapM f = Except.ok outs →
      ∀ o ∈ outs, ∃ a ∈ l, f a = Except.ok o := by
  intro l
  induction l with
  | nil =>
    intro outs h o ho
    rw [List.mapM_nil] at h
    cases h
    cases ho
  | cons a t ih =>
    intro outs h o ho
    rw [List.mapM_cons] at h
    cases hfa : f a with
    | error e => rw [hfa] at h; cases h
    | ok b =>
      rw [hfa] at h
      cases hft : t.mapM f with
      | error e => rw [hft] at h; cases h
      | ok bs =>
        rw [hft] at h
        simp only [ok_bind] at h
        have hout : b :: bs = outs := by
          injection h
        subst hout
        rcases List.mem_cons.mp ho with ho | ho
        · exact ⟨a, by simp, by rw [hfa, ho]⟩
        · rcases ih bs hft o ho with ⟨a', ha', hfa'⟩
          exact ⟨a', by simp [ha'], hfa'⟩

theorem idxOf?_lt {α : Type} [DecidableEq α] (a : α) :
    ∀ (l : List α) (i : Nat), idxOf? a l = some i → i < l.length := by
  intro l
  induction l with
  | nil => intro i h; cases h
  | cons b t ih =>
    intro i h
    rw [idxOf?] at h
    by_cases hb : b = a
    · rw [if_pos hb] at h
      injection h with h
      subst h
      simp
    · rw [if_neg hb] at h
      cases hj : idxOf? a t with
      | none => rw [hj] at h; cases h
      | some j =>
        rw [hj] at h
        injection h with h
        subst h
        have := ih j hj
        simp only [List.length_cons]
        omega

theorem idxOf?_getElem {α : Type} [DecidableEq α] (a : α) :
    ∀ (l : List α) (i : Nat), idxOf? a l = some i → l[i]? = some a := by
  intro l
  induction l with
  | nil => intro i h; cases h
  | cons b t ih =>
    intro i h
    rw [idxOf?] at h
    by_cases hb : b = a
    · rw [if_pos hb] at h
      injection h with h
      subst h
      simp [hb]
    · rw [if_neg hb] at h
      cases hj : idxOf? a t with
      | none => rw [hj] at h; cases h
      | some j =>
        rw [hj] at h
        injection h with h
        subst h
        simpa using ih j hj

theorem idxOf?_isSome_of_mem {α : Type} [DecidableEq α] (a : α) :
    ∀ l : List α, a ∈ l → ∃ i, idxOf? a l = some i := by
  intro l
  induction l with
  | nil => intro h; cases h
  | cons b t ih =>
    intro h
    by_cases hb : b = a
    · exact ⟨0, by rw [idxOf?, if_pos hb]⟩
    · have ht : a ∈ t := by
        rcases List.mem_cons.mp h with h | h
        · exact absurd h.symm hb
        · exact h
      rcases ih ht with ⟨i, hi⟩
      exact ⟨i + 1, by rw [idxOf?, if_neg hb, hi]; rfl⟩

theorem idxOf?_mem {α : Type} [DecidableEq α] (a : α) :
    ∀ (l : List α) (i : Nat), idxOf? a l = some i → a ∈ l := by
  intro l
  induction l with
  | nil => intro i h; cases h
  | cons b t ih =>
    intro i h
    rw [idxOf?] at h
    by_cases hb : b = a
    · simp [hb]
    · rw [if_neg hb] at h
      cases hj : idxOf? a t with
      | none => rw [hj] at h; cases h
      | some j => exact List.mem_cons_of_mem b (ih j hj)

theorem idxOf?_none_of_not_mem {α : Type} [DecidableEq α] (a : α) :
    ∀ l : List α, a ∉ l → idxOf? a l = none := by
  intro l
  induction l with
  | nil => intro _; rfl
  | cons b t ih =>
    intro h
    rw [idxOf?]
    have hb : ¬b = a := fun hba => h (by simp [hba])
    rw [if_neg hb, ih (fun ht => h (by simp [ht]))]
    rfl

theorem idxOf?_append_ne {α : Type} [DecidableEq α] (a c : α) (h : a ≠ c) :
    ∀ l : List α, idxOf? a (l ++ [c]) = idxOf? a l := by
  intro l
  induction l with
  | nil =>
    have hc : ¬c = a := fun hc => h hc.symm
    simp [idxOf?, hc]
  | cons b t ih =>
    rw [List.cons_append, idxOf?, idxOf?, ih]

theorem idxOf?_append_self {α : Type} [DecidableEq α] (c : α) :
    ∀ l : List α, c ∉ l → idxOf? c (l ++ [c]) = some l.length := by
  intro l
  induction l with
  | nil => intro _; rw [List.nil_append, idxOf?, if_pos rfl]; rfl
  | cons b t ih =>
    intro h
    have hb : ¬b = c := fun hbc => h (by simp [hbc])
    rw [List.cons_append, idxOf?, if_neg hb, ih (fun ht => h (by simp [ht]))]
    rfl

theorem getCol_length (df : DataFrame) (c : String) (vs : List Value)
    (h : df.getCol c = some vs) : vs.length = df.rows.length := by
  unfold DataFrame.getCol at h
  cases hi : idxOf? c df.cols with
  | none => rw [hi] at h; cases h
  | some i =>
    rw [hi] at h
    injection h with h
    rw [← h, List.length_map]

theorem getCol_none_of_not_mem (df : DataFrame) (c : String) (h : c ∉ df.cols) :
    df.getCol c = none := by
  unfold DataFrame.getCol
  rw [idxOf?_none_of_not_mem c df.cols h]
  rfl

theorem getCol_isSome_of_mem (df : DataFrame) (c : String) (h : c ∈ df.cols) :
    ∃ vs, df.getCol c = some vs := by
  rcases idxOf?_isSome_of_mem c df.cols h with ⟨i, hi⟩
  exact ⟨_, by unfold DataFrame.getCol; rw [hi]; rfl⟩

theorem setCol_rows_length (df : DataFrame) (c : String) (v : Value) :
    (df.setCol c v).rows.length = df.rows.length := by
  unfold DataFrame.setCol
  cases idxOf? c df.cols <;> simp

theorem setCol_cols_subset (df : DataFrame) (c c' : String) (v : Value)
    (h : c' ∈ df.cols) : c' ∈ (df.setCol c v).cols := by
  unfold DataFrame.setCol
  cases idxOf? c df.cols <;> simp [h]

theorem setCol_cols_self (df : DataFrame) (c : String) (v : Value) :
    c ∈ (df.setCol c v).cols := by
  unfold DataFrame.setCol
  cases hi : idxOf? c df.cols with
  | none => simp
  | some i => exact idxOf?_mem c df.cols i hi

theorem aligned_setCol (df : DataFrame) (c : String) (v : Value)
    (h : Aligned df) : Aligned (df.setCol c v) := by
  unfold DataFrame.setCol
  cases idxOf? c df.cols with
  | none =>
    intro r hr
    simp only [List.mem_map] at hr
    rcases hr with ⟨r0, hr0, rfl⟩
    simp [h r0 hr0]
  | some i =>
    intro r hr
    simp only [List.mem_map] at hr
    rcases hr with ⟨r0, hr0, rfl⟩
    simp [h r0 hr0]

theorem getCol_setCol_self (df : DataFrame) (c : String) (v : Value)
    (h : Aligned df) :
    (df.setCol c v).getCol c = some (List.replicate df.rows.length v) := by
  unfold DataFrame.setCol
  cases hi : idxOf? c df.cols with
  | some i =>
    have hlt : i < df.cols.length := idxOf?_lt c df.cols i hi
    unfold DataFrame.getCol
    simp only [hi]
    refine congrArg some ?_
    simp only [List.map_map]
    apply List.eq_replicate_iff.mpr
    refine ⟨by simp, ?_⟩
    intro b hb
    simp only [List.mem_map, Function.comp] at hb
    rcases hb with ⟨r, hr, rfl⟩
    have hrl : r.length = df.cols.length := h r hr
    unfold cellAt
    rw [List.getD_eq_getElem?_getD, List.getElem?_set_self (by omega)]
    rfl
  | none =>
    have hnm : c ∉ df.cols := fun hm => by
      rcases idxOf?_isSome_of_mem c df.cols hm with ⟨j, hj⟩
      rw [hi] at hj; cases hj
    unfold DataFrame.getCol
    simp only [idxOf?_append_self c df.cols hnm]
    refine congrArg some ?_
    simp only [List.map_map]
    apply List.eq_replicate_iff.mpr
    refine ⟨by simp, ?_⟩
    intro b hb
    simp only [List.mem_map, Function.comp] at hb
    rcases hb with ⟨r, hr, rfl⟩
    have hrl : r.length = df.cols.length := h r hr
    unfold cellAt
    rw [List.getD_eq_getElem?_getD, List.getElem?_append]
    simp [hrl]

theorem getCol_setCol_ne (df : DataFrame) (c c' : String) (v : Value)
    (h : Aligned df) (hne : c' ≠ c) :
    (df.setCol c v).getCol c' = df.getCol c' := by
  unfold DataFrame.setCol
  cases hi : idxOf? c df.cols with
  | some i =>
    unfold DataFrame.getCol
    simp only
    cases hj : idxOf? c' df.cols with
    | none => rfl
    | some j =>
      simp only [Option.map_some']
      refine congrArg some ?_
      simp only [List.map_map]
      apply List.map_congr_left
      intro r _
      have hci : df.cols[i]? = some c := idxOf?_getElem c df.cols i hi
      have hcj : df.cols[j]? = some c' := idxOf?_getElem c' df.cols j hj
      have hij : i ≠ j := by
        intro hEq
        rw [hEq, hcj] at hci
        injection hci with hci
        exact hne hci
      simp only [Function.comp]
      unfold cellAt
      rw [List.getD_eq_getElem?_getD, List.getElem?_set_ne hij, ← List.getD_eq_getElem?_getD]
  | none =>
    unfold DataFrame.getCol
    simp only [idxOf?_append_ne c' c hne]
    cases hj : idxOf? c' df.cols with
    | none => rfl
    | some j =>
      simp only [Option.map_some']
      refine congrArg some ?_
      simp only [List.map_map]
      apply List.map_congr_left
      intro r hr
      have hjl : j < df.cols.length := idxOf?_lt c' df.cols j hj
      have hrl : r.length = df.cols.length := h r hr
      simp only [Function.comp]
      unfold cellAt
      rw [List.getD_append _ _ _ _ (by omega)]

theorem mem_dedupFirstAux {α : Type} [DecidableEq α] (a : α) :
    ∀ (l seen : List α), a ∈ dedupFirstAux seen l ↔ (a ∈ l ∧ a ∉ seen) := by
  intro l
  induction l with
  | nil => intro seen; simp [dedupFirstAux]
  | cons b t ih =>
    intro seen
    rw [dedupFirstAux]
    by_cases hb : b ∈ seen
    · rw [if_pos hb, ih seen]
      constructor
      · rintro ⟨hat, has⟩
        exact ⟨List.mem_cons_of_mem b hat, has⟩
      · rintro ⟨hab, has⟩
        rcases List.mem_cons.mp hab with rfl | hat
        · exact absurd hb has
        · exact ⟨hat, has⟩
    · rw [if_neg hb]
      rw [List.mem_cons, ih (b :: seen)]
      constructor
      · rintro (rfl | ⟨hat, has⟩)
        · exact ⟨List.mem_cons_self _ _, hb⟩
        · exact ⟨List.mem_cons_of_mem b hat,
            fun hs => has (List.mem_cons_of_mem b hs)⟩
      · rintro ⟨hab, has⟩
        rcases List.mem_cons.mp hab with rfl | hat
        · exact Or.inl rfl
        · by_cases hEq : a = b
          · exact Or.inl hEq
          · exact Or.inr ⟨hat, fun hs => by
              rcases List.mem_cons.mp hs with hs | hs
              · exact hEq hs
              · exact has hs⟩

theorem mem_dedupFirst {α : Type} [DecidableEq α] (a : α) :
    ∀ l : List α, a ∈ dedupFirst l ↔ a ∈ l := by
  intro l
  unfold dedupFirst
  rw [mem_dedupFirstAux]
  simp

theorem nodup_dedupFirstAux {α : Type} [DecidableEq α] :
    ∀ (l seen : List α), (dedupFirstAux seen l).Nodup := by
  intro l
  induction l with
  | nil => intro seen; simp [dedupFirstAux]
  | cons b t ih =>
    intro seen
    rw [dedupFirstAux]
    by_cases hb : b ∈ seen
    · rw [if_pos hb]; exact ih seen
    · rw [if_neg hb]
      refine List.nodup_cons.mpr ⟨?_, ih (b :: seen)⟩
      intro hmem
      rw [mem_dedupFirstAux] at hmem
      exact hmem.2 (List.mem_cons_self _ _)

theorem nodup_dedupFirst {α : Type} [DecidableEq α] :
    ∀ l : List α, (dedupFirst l).Nodup := by
  intro l
  unfold dedupFirst
  exact nodup_dedupFirstAux l []

theorem getGroup_cols (df : DataFrame) (c : String) (v : Value) :
    (df.getGroup c v).cols = df.cols := by
  unfold DataFrame.getGroup
  cases idxOf? c df.cols <;> rfl

theorem getGroup_rows_subset (df : DataFrame) (c : String) (v : Value) :
    ∀ r ∈ (df.getGroup c v).rows, r ∈ df.rows := by
  unfold DataFrame.getGroup
  cases idxOf? c df.cols with
  | none => intro r hr; exact hr
  | some i =>
    intro r hr
    exact (List.mem_filter.mp hr).1

theorem aligned_getGroup (df : DataFrame) (c : String) (v : Value)
    (h : Aligned df) : Aligned (df.getGroup c v) := by
  intro r hr
  rw [getGroup_cols]
  exact h r (getGroup_rows_subset df c v r hr)

theorem getGroup_rows_cell (df : DataFrame) (c : String) (v : Value) (i : Nat)
    (hi : idxOf? c df.cols = some i) :
    ∀ r ∈ (df.getGroup c v).rows, cellAt r i = v := by
  unfold DataFrame.getGroup
  rw [hi]
  intro r hr
  have := (List.mem_filter.mp hr).2
  simpa using this

theorem mem_groupKeys (df : DataFrame) (c : String) (g : Value) :
    g ∈ df.groupKeys c ↔ (g ∈ (df.getCol c).getD [] ∧ g ≠ Value.null) := by
  unfold DataFrame.groupKeys
  rw [mem_dedupFirst, List.mem_filter]
  simp

theorem nodup_groupKeys (df : DataFrame) (c : String) : (df.groupKeys c).Nodup :=
  nodup_dedupFirst _

theorem getGroup_ne_nil (df : DataFrame) (c : String) (g : Value)
    (h : g ∈ df.groupKeys c) : (df.getGroup c g).rows ≠ [] := by
  rw [mem_groupKeys] at h
  cases hc : df.getCol c with
  | none => simp [hc] at h
  | some vs =>
    rw [hc, Option.getD_some] at h
    unfold DataFrame.getCol at hc
    cases hi : idxOf? c df.cols with
    | none => rw [hi] at hc; cases hc
    | some i =>
      rw [hi] at hc
      injection hc with hc
      rw [← hc] at h
      simp only [List.mem_map] at h
      rcases h with ⟨⟨r, hr, hcell⟩, -⟩
      unfold DataFrame.getGroup
      rw [hi]
      simp only
      apply List.ne_nil_of_mem (a := r)
      rw [List.mem_filter]
      exact ⟨hr, by simp [hcell]⟩

theorem uidValue_getGroup (df : DataFrame) (c : String) (g : Value)
    (h : g ∈ df.groupKeys c) : uidValue (df.getGroup c g) c = some g := by
  have hne := getGroup_ne_nil df c g h
  rw [mem_groupKeys] at h
  cases hc : df.getCol c with
  | none => simp [hc] at h
  | some vs =>
    unfold DataFrame.getCol at hc
    cases hi : idxOf? c df.cols with
    | none => rw [hi] at hc; cases hc
    | some i =>
      unfold uidValue DataFrame.getCol
      rw [getGroup_cols, hi]
      simp only [Option.map_some', Option.bind_some]
      cases hrows : (df.getGroup c g).rows with
      | nil => exact absurd hrows hne
      | cons r t =>
        have hcell : cellAt r i = g := by
          apply getGroup_rows_cell df c g i hi
          rw [hrows]
          simp
        simp [hcell]

theorem dropCols_ok_of (df : DataFrame) (cs : List String)
    (h : ∀ c ∈ cs, c ∈ df.cols) :
    df.dropCols cs = Except.ok ⟨df.cols.filter (fun c => decide (c ∉ cs)),
      df.rows.map (fun r =>
        ((df.cols.zip r).filter (fun p => decide (p.1 ∉ cs))).map (fun p => p.2))⟩ := by
  unfold DataFrame.dropCols
  rw [if_pos h]

theorem dropCols_error_of (df : DataFrame) (cs : List String)
    (h : ¬∀ c ∈ cs, c ∈ df.cols) :
    df.dropCols cs = Except.error "KeyError: drop" := by
  unfold DataFrame.dropCols
  rw [if_neg h]

theorem dropCols_ok_inv (df : DataFrame) (cs : List String) (d : DataFrame)
    (h : df.dropCols cs = Except.ok d) :
    d.cols = df.cols.filter (fun c => decide (c ∉ cs)) ∧
      d.rows.length = df.rows.length := by
  unfold DataFrame.dropCols at h
  by_cases hc : ∀ c ∈ cs, c ∈ df.cols
  · rw [if_pos hc] at h
    injection h with h
    rw [← h]
    simp
  · rw [if_neg hc] at h
    cases h

theorem dropCols_removes (df : DataFrame) (cs : List String) (d : DataFrame)
    (h : df.dropCols cs = Except.ok d) : ∀ c ∈ cs, c ∉ d.cols := by
  intro c hcs hmem
  rw [(dropCols_ok_inv df cs d h).1] at hmem
  have := (List.mem_filter.mp hmem).2
  simp at this
  exact this hcs

theorem dropCols_keeps (df : DataFrame) (cs : List String) (d : DataFrame)
    (h : df.dropCols cs = Except.ok d) : ∀ c ∈ df.cols, c ∉ cs → c ∈ d.cols := by
  intro c hmem hcs
  rw [(dropCols_ok_inv df cs d h).1]
  rw [List.mem_filter]
  exact ⟨hmem, by simpa using hcs⟩

theorem toRecords_length (df : DataFrame) : df.toRecords.length = df.rows.length := by
  unfold DataFrame.toRecords
  simp

theorem toRecords_keys (df : DataFrame) :
    ∀ rec ∈ df.toRecords, rec.map (fun p => p.1) = df.cols := by
  unfold DataFrame.toRecords
  intro rec hrec
  simp only [List.mem_map] at hrec
  rcases hrec with ⟨r, _, rfl⟩
  rw [List.map_map]
  have : ((fun p : String × Value => p.1) ∘ fun p : Nat × String => (p.2, cellAt r p.1))
      = fun p : Nat × String => p.2 := rfl
  rw [this]
  simp

theorem toRecords_key_mem (df : DataFrame) (rec : RecRow) (hrec : rec ∈ df.toRecords)
    (c : String) (v : Value) (h : (c, v) ∈ rec) : c ∈ df.cols := by
  rw [← toRecords_keys df rec hrec]
  exact List.mem_map.mpr ⟨(c, v), h, rfl⟩

theorem toRecords_key_exists (df : DataFrame) (rec : RecRow) (hrec : rec ∈ df.toRecords)
    (c : String) (h : c ∈ df.cols) : ∃ v, (c, v) ∈ rec := by
  rw [← toRecords_keys df rec hrec] at h
  rcases List.mem_map.mp h with ⟨p, hp, hpc⟩
  exact ⟨p.2, by rw [← hpc]; exact hp⟩

theorem recordsToFrame_cols_mem (recs : List RecRow) (k : String) :
    k ∈ (recordsToFrame recs).cols ↔ ∃ r ∈ recs, k ∈ r.map (fun p => p.1) := by
  unfold recordsToFrame
  simp only
  rw [mem_dedupFirst]
  rw [List.mem_flatten]
  constructor
  · rintro ⟨l, hl, hk⟩
    rcases List.mem_map.mp hl with ⟨r, hr, rfl⟩
    exact ⟨r, hr, hk⟩
  · rintro ⟨r, hr, hk⟩
    exact ⟨r.map (fun p => p.1), List.mem_map.mpr ⟨r, hr, rfl⟩, hk⟩

theorem select3_eq (df : DataFrame) (a b c : String) (ia ib ic : Nat)
    (ha : idxOf? a df.cols = some ia) (hb : idxOf? b df.cols = some ib)
    (hc : idxOf? c df.cols = some ic) :
    df.select [a, b, c] = Except.ok
      ⟨[a, b, c], df.rows.map (fun r => [cellAt r ia, cellAt r ib, cellAt r ic])⟩ := by
  unfold DataFrame.select
  simp only [List.mapM_cons, List.mapM_nil, ha, hb, hc]
  rfl

theorem select3_error (df : DataFrame) (a b c : String)
    (h : ¬(a ∈ df.cols ∧ b ∈ df.cols ∧ c ∈ df.cols)) :
    ∃ e, df.select [a, b, c] = Except.error e := by
  unfold DataFrame.select
  cases hia : idxOf? a df.cols with
  | none =>
    refine ⟨"KeyError: " ++ a, ?_⟩
    simp only [List.mapM_cons, hia]
    rfl
  | some ia =>
    have hma : a ∈ df.cols := idxOf?_mem a df.cols ia hia
    cases hib : idxOf? b df.cols with
    | none =>
      refine ⟨"KeyError: " ++ b, ?_⟩
      simp only [List.mapM_cons, hia, hib]
      rfl
    | some ib =>
      have hmb : b ∈ df.cols := idxOf?_mem b df.cols ib hib
      cases hic : idxOf? c df.cols with
      | none =>
        refine ⟨"KeyError: " ++ c, ?_⟩
        simp only [List.mapM_cons, List.mapM_nil, hia, hib, hic]
        rfl
      | some ic =>
        exact absurd ⟨hma, hmb, idxOf?_mem c df.cols ic hic⟩ h

theorem prepare_eq (df : DataFrame) (uid ti tg : String) (iu it ig : Nat)
    (hu : idxOf? uid df.cols = some iu) (ht : idxOf? ti df.cols = some it)
    (hg : idxOf? tg df.cols = some ig)
    (h1 : uid ≠ ti) (h2 : uid ≠ tg) (h3 : ti ≠ tg) (h4 : uid ≠ "y") :
    prepare df uid ti tg = Except.ok (preparedFrame df uid iu it ig) := by
  unfold prepare
  rw [select3_eq df uid ti tg iu it ig hu ht hg, ok_bind]
  have e1 : renMap [(ti, "ds"), (tg, "y")] uid = uid := by
    unfold renMap
    have n1 : ¬ti = uid := fun hEq => h1 hEq.symm
    have n2 : ¬tg = uid := fun hEq => h2 hEq.symm
    simp [List.find?, n1, n2]
  have e2 : renMap [(ti, "ds"), (tg, "y")] ti = "ds" := by
    unfold renMap
    simp [List.find?]
  have e3 : renMap [(ti, "ds"), (tg, "y")] tg = "y" := by
    unfold renMap
    have n3 : ¬ti = tg := h3
    simp [List.find?, n3]
  unfold DataFrame.renameCols
  simp only [List.map_cons, List.map_nil, e1, e2, e3]
  unfold DataFrame.fillna
  have hidx : idxOf? "y" [uid, "ds", "y"] = some 2 := by
    have n4 : ¬uid = "y" := h4
    simp [idxOf?, n4]
  simp only [hidx]
  unfold preparedFrame
  simp only [List.map_map]
  refine congrArg Except.ok (congrArg (DataFrame.mk [uid, "ds", "y"]) ?_)
  apply List.map_congr_left
  intro r _
  rfl

theorem aligned_preparedFrame (df : DataFrame) (uid : String) (iu it ig : Nat) :
    Aligned (preparedFrame df uid iu it ig) := by
  intro r hr
  unfold preparedFrame at hr ⊢
  simp only [List.mem_map] at hr
  rcases hr with ⟨r0, _, rfl⟩
  rfl

theorem create_single_eq_of_pre (P : ProphetSpec) (dfTs : DataFrame) (uid : String)
    (dc : List String) (uv : Value) (yc : List Value)
    (huv : uidValue dfTs uid = some uv) (hyc : dfTs.getCol "y" = some yc) :
    create_single_time_series P dfTs uid dc =
      Except.ok (attachBounds dfTs yc,
        match tryBody P (attachBounds dfTs yc) uid uv dc with
        | Except.ok recs => recs
        | Except.error _ => []) := by
  unfold create_single_time_series getColE
  simp only [huv, hyc, ok_bind]
  cases htb : tryBody P (attachBounds dfTs yc) uid uv dc with
  | ok recs => rfl
  | error e => rfl

theorem create_single_contains_failure (P : ProphetSpec) (dfTs : DataFrame)
    (uid : String) (dc : List String) (uv : Value) (yc : List Value) (e : String)
    (huv : uidValue dfTs uid = some uv) (hyc : dfTs.getCol "y" = some yc)
    (htb : tryBody P (attachBounds dfTs yc) uid uv dc = Except.error e) :
    create_single_time_series P dfTs uid dc =
      Except.ok (attachBounds dfTs yc, []) := by
  rw [create_single_eq_of_pre P dfTs uid dc uv yc huv hyc, htb]

theorem create_single_of_tryBody_ok (P : ProphetSpec) (dfTs : DataFrame)
    (uid : String) (dc : List String) (uv : Value) (yc : List Value) (recs : List RecRow)
    (huv : uidValue dfTs uid = some uv) (hyc : dfTs.getCol "y" = some yc)
    (htb : tryBody P (attachBounds dfTs yc) uid uv dc = Except.ok recs) :
    create_single_time_series P dfTs uid dc =
      Except.ok (attachBounds dfTs yc, recs) := by
  rw [create_single_eq_of_pre P dfTs uid dc uv yc huv hyc, htb]

theorem preparedFrame_getCol_uid (df : DataFrame) (uid : String) (iu it ig : Nat) :
    (preparedFrame df uid iu it ig).getCol uid =
      some (df.rows.map (fun r => cellAt r iu)) := by
  unfold preparedFrame DataFrame.getCol
  have h0 : idxOf? uid [uid, "ds", "y"] = some 0 := by rw [idxOf?, if_pos rfl]
  rw [h0]
  simp only [Option.map_some', List.map_map]
  refine congrArg some (List.map_congr_left ?_)
  intro r _
  rfl

theorem preparedFrame_getCol_ds (df : DataFrame) (uid : String) (iu it ig : Nat)
    (h : uid ≠ "ds") :
    (preparedFrame df uid iu it ig).getCol "ds" =
      some (df.rows.map (fun r => cellAt r it)) := by
  unfold preparedFrame DataFrame.getCol
  have n : ¬uid = "ds" := h
  have h1 : idxOf? "ds" [uid, "ds", "y"] = some 1 := by simp [idxOf?, n]
  rw [h1]
  simp only [Option.map_some', List.map_map]
  refine congrArg some (List.map_congr_left ?_)
  intro r _
  rfl

theorem preparedFrame_getCol_y (df : DataFrame) (uid : String) (iu it ig : Nat)
    (h : uid ≠ "y") :
    (preparedFrame df uid iu it ig).getCol "y" =
      some (df.rows.map (fun r => fillVal (cellAt r ig))) := by
  unfold preparedFrame DataFrame.getCol
  have n : ¬uid = "y" := h
  have h2 : idxOf? "y" [uid, "ds", "y"] = some 2 := by simp [idxOf?, n]
  rw [h2]
  simp only [Option.map_some', List.map_map]
  refine congrArg some (List.map_congr_left ?_)
  intro r _
  rfl

theorem setCol_cols_cases (df : DataFrame) (c0 c : String) (v : Value)
    (h : c ∈ (df.setCol c0 v).cols) : c ∈ df.cols ∨ c = c0 := by
  unfold DataFrame.setCol at h
  cases hi : idxOf? c0 df.cols with
  | some i => rw [hi] at h; exact Or.inl h
  | none =>
    rw [hi] at h
    rcases List.mem_append.mp h with h | h
    · exact Or.inl h
    · rcases List.mem_cons.mp h with h | h
      · exact Or.inr h
      · cases h

theorem futureFrame_rows_length (P : ProphetSpec) (d f : DataFrame)
    (hf : futureFrame P d = Except.ok f) : f.rows.length = d.rows.length + 1 := by
  unfold futureFrame at hf
  cases hds : d.getCol "ds" with
  | none =>
    unfold getColE at hf
    rw [hds] at hf
    cases hf
  | some hist =>
    unfold getColE at hf
    rw [hds] at hf
    simp only [ok_bind] at hf
    cases hnd : P.nextDate prophetModel d with
    | error e => rw [hnd] at hf; cases hf
    | ok nd =>
      rw [hnd] at hf
      simp only [ok_bind] at hf
      cases hyd : d.getCol "y" with
      | none => rw [hyd] at hf; cases hf
      | some yc =>
        rw [hyd] at hf
        simp only [ok_bind] at hf
        injection hf with hf
        rw [← hf]
        rw [setCol_rows_length, setCol_rows_length]
        simp [getCol_length d "ds" hist hds]

theorem tryBody_ok_inv (P : ProphetSpec) (df2 : DataFrame) (uid : String)
    (uv : Value) (dc : List String) (recs : List RecRow)
    (htb : tryBody P df2 uid uv dc = Except.ok recs) :
    ∃ f prows dfP2,
      futureFrame P df2 = Except.ok f ∧
      P.predictRows prophetModel df2 f = Except.ok prows ∧
      ((DataFrame.mk P.outCols prows).setCol uid uv).dropCols dc = Except.ok dfP2 ∧
      recs = dfP2.toRecords := by
  unfold tryBody at htb
  cases hfit : P.fit prophetModel fitIterCap df2 with
  | error e => rw [hfit] at htb; cases htb
  | ok u =>
    rw [hfit, ok_bind] at htb
    cases hff : futureFrame P df2 with
    | error e => rw [hff] at htb; cases htb
    | ok f =>
      rw [hff, ok_bind] at htb
      cases hpr : P.predictRows prophetModel df2 f with
      | error e => rw [hpr] at htb; cases htb
      | ok prows =>
        rw [hpr, ok_bind] at htb
        cases hdr : ((DataFrame.mk P.outCols prows).setCol uid uv).dropCols dc with
        | error e => rw [hdr] at htb; cases htb
        | ok dfP2 =>
          rw [hdr, ok_bind] at htb
          injection htb with htb
          exact ⟨f, prows, dfP2, rfl, hpr, hdr, htb.symm⟩

theorem create_all_ok_inv (P : ProphetSpec) (df : DataFrame) (uid ti tg : String)
    (dc : List String) (out : DataFrame × DataFrame)
    (h : create_all_time_series P df uid ti tg dc = Except.ok out) :
    ∃ dfts outs,
      prepare df uid ti tg = Except.ok dfts ∧
      (dfts.groupKeys uid).mapM
          (fun g => create_single_time_series P (dfts.getGroup uid g) uid dc) =
        Except.ok outs ∧
      out.1 = df ∧
      out.2 = (recordsToFrame ((outs.map (fun o => o.2)).flatten)).renameCols
        (outRename ti tg) := by
  unfold create_all_time_series at h
  cases hp : prepare df uid ti tg with
  | error e => rw [hp] at h; cases h
  | ok dfts =>
    rw [hp, ok_bind] at h
    cases hm : (dfts.groupKeys uid).mapM
        (fun g => create_single_time_series P (dfts.getGroup uid g) uid dc) with
    | error e => rw [hm] at h; cases h
    | ok outs =>
      rw [hm, ok_bind] at h
      injection h with h
      exact ⟨dfts, outs, rfl, hm, by rw [← h], by rw [← h]⟩

theorem worker_record_keys (P : ProphetSpec) (dfg : DataFrame) (uid : String)
    (dc : List String) (d : DataFrame) (recs : List RecRow)
    (hw : create_single_time_series P dfg uid dc = Except.ok (d, recs)) :
    ∀ rec ∈ recs,
      (∀ c ∈ dc, c ∉ rec.map (fun p => p.1)) ∧
      (∀ c, c ∈ P.outCols → c ∉ dc → c ∈ rec.map (fun p => p.1)) ∧
      (uid ∉ dc → uid ∈ rec.map (fun p => p.1)) := by
  unfold create_single_time_series at hw
  cases huv : uidValue dfg uid with
  | none => rw [huv] at hw; cases hw
  | some uv =>
    rw [huv] at hw
    simp only [ok_bind] at hw
    cases hyc : dfg.getCol "y" with
    | none =>
      unfold getColE at hw
      rw [hyc] at hw
      cases hw
    | some yc =>
      unfold getColE at hw
      rw [hyc] at hw
      simp only [ok_bind] at hw
      cases htb : tryBody P (attachBounds dfg yc) uid uv dc with
      | error e =>
        rw [htb] at hw
        injection hw with hw
        have hrecs : recs = [] := (congrArg Prod.snd hw).symm
        rw [hrecs]
        intro rec hrec
        cases hrec
      | ok recs0 =>
        rw [htb] at hw
        injection hw with hw
        have hrecs : recs = recs0 := (congrArg Prod.snd hw).symm
        subst hrecs
        rcases tryBody_ok_inv P (attachBounds dfg yc) uid uv dc recs htb
          with ⟨f, prows, dfP2, _, _, hdr, hrec2⟩
        subst hrec2
        intro rec hrec
        have hkeys := toRecords_keys dfP2 rec hrec
        refine ⟨?_, ?_, ?_⟩
        · intro c hcdc
          rw [hkeys]
          exact dropCols_removes _ dc dfP2 hdr c hcdc
        · intro c hco hcdc
          rw [hkeys]
          refine dropCols_keeps _ dc dfP2 hdr c ?_ hcdc
          exact setCol_cols_subset _ uid c uv hco
        · intro hudc
          rw [hkeys]
          exact dropCols_keeps _ dc dfP2 hdr uid (setCol_cols_self _ uid uv) hudc

theorem outRename_other (ti tg s : String) (hs1 : s ≠ "ds") (hs2 : s ≠ "y") :
    outRename ti tg s = s := by
  unfold outRename renMap
  have n1 : ¬"ds" = s := fun h => hs1 h.symm
  have n2 : ¬"y" = s := fun h => hs2 h.symm
  simp [List.find?, n1, n2]

/-! ## Claims -/

/-- Claim C8: every worker invocation constructs its model with multiplicative
seasonality, weekly and daily seasonality disabled, yearly seasonality
enabled, logistic (saturating) growth, changepoint prior scale 0.5, one
custom monthly seasonal component (period 30.5, fourier order 5), the Russia
holiday calendar, and fits with the solver capped at 2000 iterations; the try
block consults `fit` at exactly this configuration and cap. -/
theorem claim8_worker_model_config :
    prophetModel = (⟨"multiplicative", false, false, true, "logistic", (1 : Rat) / 2,
        [("monthly", (61 : Rat) / 2, 5)], some "Russia"⟩ : ModelConfig) ∧
    fitIterCap = 2000 ∧
    ∀ (P : ProphetSpec) (df2 : DataFrame) (uid : String) (uv : Value)
      (dc : List String) (e : String),
      P.fit prophetModel fitIterCap df2 = Except.error e →
      tryBody P df2 uid uv dc = Except.error e := by
  refine ⟨rfl, rfl, ?_⟩
  intro P df2 uid uv dc e hf
  unfold tryBody
  rw [hf]
  rfl

/-- Witness for C8: the failing stand-in library makes the try block fail with
exactly the error its `fit` reports at the worker's configuration. -/
theorem claim8_witness :
    tryBody Pfail dfEmpty "item" (Value.str "A") [] = Except.error "non-convergence" :=
  claim8_worker_model_config.2.2 Pfail dfEmpty "item" (Value.str "A") [] "non-convergence" rfl

/-- Claim C3 counterexample: an empty dataset whose required columns are all
present is NOT a hard failure — the pipeline completes and returns an empty
result table rather than raising. -/
theorem claim3_counterexample :
    create_all_time_series P0 dfEmpty "item" "month" "sales" [] =
      Except.ok (dfEmpty, DataFrame.mk [] []) := rfl

/-- Claim C3 (amended): a dataset missing any of the three required columns
makes the orchestrator raise directly to the caller — there is no catch-all
around projection and grouping.  (An empty dataset with the required columns
present is not an error: it yields an empty result table.) -/
theorem claim3_missing_column_error (P : ProphetSpec) (df : DataFrame)
    (uid ti tg : String) (dc : List String)
    (h : ¬(uid ∈ df.cols ∧ ti ∈ df.cols ∧ tg ∈ df.cols)) :
    ∃ e, create_all_time_series P df uid ti tg dc = Except.error e := by
  rcases select3_error df uid ti tg h with ⟨e, he⟩
  refine ⟨e, ?_⟩
  unfold create_all_time_series prepare
  rw [he]
  rfl

/-- Witness for C3: requesting the absent entity column `bogus` on the sample
dataset raises a `KeyError` out of the orchestrator. -/
theorem claim3_witness :
    create_all_time_series P0 dfEx "bogus" "month" "sales" [] =
      Except.error "KeyError: bogus" := by
  rcases claim3_missing_column_error P0 dfEx "bogus" "month" "sales" [] (by decide)
    with ⟨e, he⟩
  have hval : create_all_time_series P0 dfEx "bogus" "month" "sales" [] =
      Except.error "KeyError: bogus" := rfl
  exact hval

/-- Claim C2 (amended): exactly one Forecast Worker task is submitted per
distinct NON-MISSING value of the entity column — the group keys are
duplicate-free, their set equals the set of non-null entity values in the
input (rows with a missing entity id are silently dropped at grouping time,
as pandas groupby drops NaN keys), and the orchestrator dispatches one worker
call per group key.  No trailing-6-period volume filter is applied anywhere
before submission. -/
theorem claim2_partition_completeness (df : DataFrame) (uid ti tg : String)
    (iu it ig : Nat)
    (hu : idxOf? uid df.cols = some iu) (ht : idxOf? ti df.cols = some it)
    (hg : idxOf? tg df.cols = some ig)
    (h1 : uid ≠ ti) (h2 : uid ≠ tg) (h3 : ti ≠ tg) (h4 : uid ≠ "y")
    (dfts : DataFrame) (hp : prepare df uid ti tg = Except.ok dfts) :
    (dfts.groupKeys uid).Nodup ∧
    (∀ v, v ∈ dfts.groupKeys uid ↔
      (v ∈ (df.getCol uid).getD [] ∧ v ≠ Value.null)) ∧
    (∀ (P : ProphetSpec) (dc : List String),
      create_all_time_series P df uid ti tg dc =
        ((dfts.groupKeys uid).mapM
          (fun g => create_single_time_series P (dfts.getGroup uid g) uid dc)) >>=
          (fun outs => Except.ok (df,
            (recordsToFrame ((outs.map (fun o => o.2)).flatten)).renameCols
              (outRename ti tg)))) := by
  have hpe := prepare_eq df uid ti tg iu it ig hu ht hg h1 h2 h3 h4
  rw [hp] at hpe
  injection hpe with hpe
  subst hpe
  refine ⟨nodup_groupKeys _ _, ?_, ?_⟩
  · intro v
    rw [mem_groupKeys, preparedFrame_getCol_uid, Option.getD_some]
    unfold DataFrame.getCol
    rw [hu, Option.map_some', Option.getD_some]
  · intro P dc
    unfold create_all_time_series
    rw [hp, ok_bind]
    rfl

/-- Witness for C2: on the sample dataset the submitted group keys are
duplicate-free and contain entity B exactly as the input's entity column
does (B is a present, non-missing id). -/
theorem claim2_witness :
    ((preparedFrame dfEx "item" 0 1 2).groupKeys "item").Nodup ∧
    (Value.str "B" ∈ (preparedFrame dfEx "item" 0 1 2).groupKeys "item" ↔
      (Value.str "B" ∈ (dfEx.getCol "item").getD [] ∧
        Value.str "B" ≠ Value.null)) := by
  have h := claim2_partition_completeness dfEx "item" "month" "sales" 0 1 2
    rfl rfl rfl (by decide) (by decide) (by decide) (by decide)
    (preparedFrame dfEx "item" 0 1 2) rfl
  exact ⟨h.1, h.2.1 (Value.str "B")⟩

/-- Claim C2 counterexample: a missing entity id IS a distinct value of the
entity column, yet grouping submits no task for it — pandas groupby drops
NaN keys — so the set of submitted entities is strictly smaller than the set
of distinct entity-column values, and the null row's data is silently absent
from the run's output. -/
theorem claim2_counterexample :
    Value.null ∈ (dfNull.getCol "item").getD [] ∧
    prepare dfNull "item" "month" "sales" =
      Except.ok (preparedFrame dfNull "item" 0 1 2) ∧
    (preparedFrame dfNull "item" 0 1 2).groupKeys "item" = [Value.str "A"] ∧
    Value.null ∉ (preparedFrame dfNull "item" 0 1 2).groupKeys "item" ∧
    create_all_time_series P0 dfNull "item" "month" "sales" [] =
      Except.ok (dfNull, resNull) :=
  ⟨by decide, rfl, rfl, by decide, rfl⟩

/-- Claim C9: a completed run hands back the caller's dataset exactly as it
came in (the orchestrator works on a projected copy), even though every
worker visibly mutates its own frame by attaching cap and floor columns. -/
theorem claim9_no_input_mutation (P : ProphetSpec) (df : DataFrame)
    (uid ti tg : String) (dc : List String) (out : DataFrame × DataFrame)
    (h : create_all_time_series P df uid ti tg dc = Except.ok out) :
    out.1 = df ∧
    ∀ (dfg : DataFrame) (uv : Value) (yc : List Value) (d : DataFrame)
      (recs : List RecRow),
      uidValue dfg uid = some uv → dfg.getCol "y" = some yc →
      create_single_time_series P dfg uid dc = Except.ok (d, recs) →
      "cap" ∈ d.cols ∧ "floor" ∈ d.cols := by
  constructor
  · unfold create_all_time_series at h
    cases hp : prepare df uid ti tg with
    | error e => rw [hp] at h; cases h
    | ok dfts =>
      rw [hp, ok_bind] at h
      cases hm : (dfts.groupKeys uid).mapM
          (fun g => create_single_time_series P (dfts.getGroup uid g) uid dc) with
      | error e => rw [hm] at h; cases h
      | ok outs =>
        rw [hm, ok_bind] at h
        injection h with h
        rw [← h]
  · intro dfg uv yc d recs huv hyc hw
    rw [create_single_eq_of_pre P dfg uid dc uv yc huv hyc] at hw
    injection hw with hw
    have hd : d = attachBounds dfg yc := by
      have := congrArg Prod.fst hw
      exact this.symm
    subst hd
    unfold attachBounds
    refine ⟨?_, setCol_cols_self _ _ _⟩
    exact setCol_cols_subset _ _ _ _ (setCol_cols_self _ _ _)

/-- Witness for C9: running the pipeline on the empty sample returns the
input frame untouched, and a concrete worker run shows the cap/floor columns
on the worker's own mutated frame. -/
theorem claim9_witness :
    (dfEmpty, DataFrame.mk [] []).1 = dfEmpty ∧
    "cap" ∈ (attachBounds dfG1 [Value.num 3]).cols ∧
    "floor" ∈ (attachBounds dfG1 [Value.num 3]).cols := by
  have h := claim9_no_input_mutation P0 dfEmpty "item" "month" "sales" []
    (dfEmpty, DataFrame.mk [] []) rfl
  refine ⟨h.1 ▸ rfl, ?_⟩
  have h2 := h.2 dfG1 (Value.str "A") [Value.num 3]
    (attachBounds dfG1 [Value.num 3]) recsG1 rfl rfl rfl
  exact h2

/-- Claim C1: any exception inside the worker's try block (fitting,
future-frame construction, prediction, column drop) makes the worker return
the empty record list instead of propagating, and the orchestrator's output
is exactly the per-entity flattening of each worker's own records — one
entity's failure cannot touch another entity's contribution. -/
theorem claim1_failure_containment :
    (∀ (P : ProphetSpec) (dfg : DataFrame) (uid : String) (dc : List String)
       (uv : Value) (yc : List Value) (e : String),
       uidValue dfg uid = some uv → dfg.getCol "y" = some yc →
       tryBody P (attachBounds dfg yc) uid uv dc = Except.error e →
       create_single_time_series P dfg uid dc =
         Except.ok (attachBounds dfg yc, [])) ∧
    (∀ (P : ProphetSpec) (df : DataFrame) (uid ti tg : String) (dc : List String)
       (out : DataFrame × DataFrame) (dfts : DataFrame),
       create_all_time_series P df uid ti tg dc = Except.ok out →
       prepare df uid ti tg = Except.ok dfts →
       ∃ outs, (dfts.groupKeys uid).mapM
           (fun g => create_single_time_series P (dfts.getGroup uid g) uid dc) =
             Except.ok outs ∧
         out.2 = (recordsToFrame ((outs.map (fun o => o.2)).flatten)).renameCols
           (outRename ti tg)) := by
  constructor
  · intro P dfg uid dc uv yc e huv hyc htb
    exact create_single_contains_failure P dfg uid dc uv yc e huv hyc htb
  · intro P df uid ti tg dc out dfts h hp
    unfold create_all_time_series at h
    rw [hp, ok_bind] at h
    cases hm : (dfts.groupKeys uid).mapM
        (fun g => create_single_time_series P (dfts.getGroup uid g) uid dc) with
    | error e => rw [hm] at h; cases h
    | ok outs =>
      rw [hm, ok_bind] at h
      injection h with h
      refine ⟨outs, rfl, ?_⟩
      rw [← h]

/-- Witness for C1: a failing fit on a concrete one-row series yields the
empty record list (no error escapes), and the empty run decomposes into the
flattening of its (zero) per-entity outputs. -/
theorem claim1_witness :
    create_single_time_series Pfail dfG1 "item" [] =
      Except.ok (attachBounds dfG1 [Value.num 3], []) ∧
    DataFrame.mk [] [] = (recordsToFrame []).renameCols (outRename "month" "sales") := by
  constructor
  · exact claim1_failure_containment.1 Pfail dfG1 "item" [] (Value.str "A")
      [Value.num 3] "non-convergence" rfl rfl rfl
  · rcases claim1_failure_containment.2 P0 dfEmpty "item" "month" "sales" []
      (dfEmpty, DataFrame.mk [] []) (preparedFrame dfEmpty "item" 0 1 2) rfl rfl
      with ⟨outs, houts, hres⟩
    have hrfl : ((preparedFrame dfEmpty "item" 0 1 2).groupKeys "item").mapM
        (fun g => create_single_time_series P0
          ((preparedFrame dfEmpty "item" 0 1 2).getGroup "item" g) "item" []) =
        Except.ok ([] : List (DataFrame × List RecRow)) := rfl
    rw [hrfl] at houts
    injection houts with houts
    rw [← houts] at hres
    exact hres

/-- Claim C5: for every fitted entity the saturation bounds are
cap = 2 × max(y) and floor = 1, broadcast identically onto every historical
row of the worker's frame and onto every row of the future frame used for
prediction (which has exactly one extra row). -/
theorem claim5_cap_floor (P : ProphetSpec) (dfTs : DataFrame) (uid : String)
    (dc : List String) (uv : Value) (yc : List Value) (m : Int)
    (hal : Aligned dfTs)
    (huv : uidValue dfTs uid = some uv)
    (hyc : dfTs.getCol "y" = some yc)
    (hm : vmaxAux yc = some m) :
    ∃ recs, create_single_time_series P dfTs uid dc =
        Except.ok (attachBounds dfTs yc, recs) ∧
      (attachBounds dfTs yc).getCol "cap"
          = some (List.replicate dfTs.rows.length (Value.num (2 * m))) ∧
      (attachBounds dfTs yc).getCol "floor"
          = some (List.replicate dfTs.rows.length (Value.num 1)) ∧
      ∀ f, futureFrame P (attachBounds dfTs yc) = Except.ok f →
        f.getCol "cap"
            = some (List.replicate (dfTs.rows.length + 1) (Value.num (2 * m))) ∧
        f.getCol "floor"
            = some (List.replicate (dfTs.rows.length + 1) (Value.num 1)) ∧
        f.rows.length = dfTs.rows.length + 1 := by
  have hcapv : capOf yc = Value.num (2 * m) := by unfold capOf; rw [hm]
  have halX : Aligned (dfTs.setCol "cap" (capOf yc)) := aligned_setCol _ _ _ hal
  have hXlen : (dfTs.setCol "cap" (capOf yc)).rows.length = dfTs.rows.length :=
    setCol_rows_length _ _ _
  refine ⟨_, create_single_eq_of_pre P dfTs uid dc uv yc huv hyc, ?_, ?_, ?_⟩
  · unfold attachBounds
    rw [getCol_setCol_ne _ _ _ _ halX (by decide)]
    rw [getCol_setCol_self dfTs "cap" (capOf yc) hal, hcapv]
  · unfold attachBounds
    rw [getCol_setCol_self _ "floor" _ halX, hXlen]
  · intro f hf
    unfold futureFrame at hf
    have hyd : (attachBounds dfTs yc).getCol "y" = some yc := by
      unfold attachBounds
      rw [getCol_setCol_ne _ _ _ _ halX (by decide)]
      rw [getCol_setCol_ne _ _ _ _ hal (by decide)]
      exact hyc
    cases hds : (attachBounds dfTs yc).getCol "ds" with
    | none =>
      unfold getColE at hf
      rw [hds] at hf
      cases hf
    | some hist =>
      unfold getColE at hf
      rw [hds] at hf
      simp only [ok_bind] at hf
      cases hnd : P.nextDate prophetModel (attachBounds dfTs yc) with
      | error e => rw [hnd] at hf; cases hf
      | ok nd =>
        rw [hnd] at hf
        simp only [ok_bind, hyd] at hf
        have hflen : hist.length = dfTs.rows.length := by
          have h1 := getCol_length _ _ _ hds
          unfold attachBounds at h1
          rw [setCol_rows_length, setCol_rows_length] at h1
          exact h1
        have halB : Aligned (DataFrame.mk ["ds"] ((hist ++ [nd]).map (fun v => [v]))) := by
          intro r hr
          simp only [List.mem_map] at hr
          rcases hr with ⟨v, _, rfl⟩
          rfl
        have hBlen : (DataFrame.mk ["ds"] ((hist ++ [nd]).map (fun v => [v]))).rows.length
            = dfTs.rows.length + 1 := by
          simp [hflen]
        have halB2 : Aligned ((DataFrame.mk ["ds"]
            ((hist ++ [nd]).map (fun v => [v]))).setCol "cap" (capOf yc)) :=
          aligned_setCol _ _ _ halB
        have hB2len : ((DataFrame.mk ["ds"]
            ((hist ++ [nd]).map (fun v => [v]))).setCol "cap" (capOf yc)).rows.length
            = dfTs.rows.length + 1 := by
          rw [setCol_rows_length]
          exact hBlen
        injection hf with hf
        rw [← hf]
        refine ⟨?_, ?_, ?_⟩
        · rw [getCol_setCol_ne _ _ _ _ halB2 (by decide)]
          rw [getCol_setCol_self _ "cap" _ halB, hBlen, hcapv]
        · rw [getCol_setCol_self _ "floor" _ halB2, hB2len]
        · rw [setCol_rows_length, setCol_rows_length]
          exact hBlen

/-- Witness for C5: for the concrete one-row series, cap 6 = 2 × 3 and
floor 1 are attached to the single historical row and to both rows of the
future frame. -/
theorem claim5_witness :
    (attachBounds dfG1 [Value.num 3]).getCol "cap" = some [Value.num 6] ∧
    (attachBounds dfG1 [Value.num 3]).getCol "floor" = some [Value.num 1] ∧
    (DataFrame.mk ["ds", "cap", "floor"]
        [[Value.num 1, Value.num 6, Value.num 1],
         [Value.num 99, Value.num 6, Value.num 1]]).getCol "cap"
      = some [Value.num 6, Value.num 6] := by
  rcases claim5_cap_floor P0 dfG1 "item" [] (Value.str "A") [Value.num 3] 3
    (by decide) rfl rfl rfl with ⟨recs, _, hcap, hfl, hfut⟩
  rcases hfut (DataFrame.mk ["ds", "cap", "floor"]
      [[Value.num 1, Value.num 6, Value.num 1],
       [Value.num 99, Value.num 6, Value.num 1]]) rfl with ⟨hfc, _, _⟩
  exact ⟨hcap, hfl, hfc⟩

/-- Claim C4 counterexample: an entity whose FIT succeeds can still
contribute zero rows instead of history + 1 — here the fit is fine but the
drop of the absent column `nope` raises inside the catch-all, so the one-row
series contributes 0 records, not 2. -/
theorem claim4_counterexample :
    create_single_time_series P0 dfG1 "item" ["nope"] =
      Except.ok (attachBounds dfG1 [Value.num 3], []) ∧
    P0.fit prophetModel fitIterCap (attachBounds dfG1 [Value.num 3]) = Except.ok () ∧
    dfG1.rows.length + 1 = 2 ∧ ([] : List RecRow).length = 0 :=
  ⟨rfl, rfl, rfl, rfl⟩

/-- Claim C4 (amended): for every entity whose whole worker body succeeds
(fit, future frame, prediction AND the column drop), the contribution is
exactly one more row than the historical row count, and no caller-dropped
column name appears in any contributed record. -/
theorem claim4_output_shape (P : ProphetSpec) (dfTs : DataFrame) (uid : String)
    (dc : List String) (uv : Value) (yc : List Value) (recs : List RecRow)
    (hP : ∀ cfg dh f rs, P.predictRows cfg dh f = Except.ok rs →
      rs.length = f.rows.length)
    (huv : uidValue dfTs uid = some uv) (hyc : dfTs.getCol "y" = some yc)
    (htb : tryBody P (attachBounds dfTs yc) uid uv dc = Except.ok recs) :
    create_single_time_series P dfTs uid dc =
      Except.ok (attachBounds dfTs yc, recs) ∧
    recs.length = dfTs.rows.length + 1 ∧
    ∀ r ∈ recs, ∀ c ∈ dc, ∀ v : Value, (c, v) ∉ r := by
  refine ⟨create_single_of_tryBody_ok P dfTs uid dc uv yc recs huv hyc htb, ?_, ?_⟩
  · rcases tryBody_ok_inv P _ uid uv dc recs htb
      with ⟨f, prows, dfP2, hff, hpr, hdr, hrec⟩
    subst hrec
    rw [toRecords_length]
    rw [(dropCols_ok_inv _ dc dfP2 hdr).2]
    rw [setCol_rows_length]
    have h1 : (DataFrame.mk P.outCols prows).rows.length = prows.length := rfl
    rw [h1, hP _ _ _ _ hpr, futureFrame_rows_length P _ f hff]
    unfold attachBounds
    rw [setCol_rows_length, setCol_rows_length]
  · rcases tryBody_ok_inv P _ uid uv dc recs htb
      with ⟨f, prows, dfP2, hff, hpr, hdr, hrec⟩
    subst hrec
    intro r hr c hcdc v hmem
    have hkeys := toRecords_keys dfP2 r hr
    have hcin : c ∈ dfP2.cols := by
      rw [← hkeys]
      exact List.mem_map.mpr ⟨(c, v), hmem, rfl⟩
    exact dropCols_removes _ dc dfP2 hdr c hcdc hcin

/-- Witness for C4: dropping `trend` on the concrete one-row series yields
2 = 1 + 1 records and no `trend` key in them. -/
theorem claim4_witness :
    create_single_time_series P0 dfG1 "item" ["trend"] =
      Except.ok (attachBounds dfG1 [Value.num 3], recsT) ∧
    recsT.length = dfG1.rows.length + 1 ∧
    ("trend", Value.num 3) ∉ recT0 := by
  have h := claim4_output_shape P0 dfG1 "item" ["trend"] (Value.str "A")
    [Value.num 3] recsT
    (by intro cfg dh f rs hh; injection hh with hh; rw [← hh]; simp) rfl rfl rfl
  exact ⟨h.1, h.2.1, h.2.2 recT0 (by decide) "trend" (by decide) (Value.num 3)⟩

theorem getCol_getGroup (df : DataFrame) (c0 c : String) (a : Value) (i j : Nat)
    (hi : idxOf? c0 df.cols = some i) (hj : idxOf? c df.cols = some j) :
    (df.getGroup c0 a).getCol c =
      some ((df.rows.filter (fun r => decide (cellAt r i = a))).map
        (fun r => cellAt r j)) := by
  unfold DataFrame.getGroup
  rw [hi]
  unfold DataFrame.getCol
  simp only [hj, Option.map_some']

theorem map_filter_three (a : Value) (A B C : Row → Value) :
    ∀ rows : List Row,
      ((rows.map (fun r => [A r, B r, C r])).filter
          (fun r3 => decide (cellAt r3 0 = a))).map (fun r3 => cellAt r3 2)
        = ((rows.map (fun r => (A r, C r))).filter
          (fun p => decide (p.1 = a))).map (fun p => p.2) := by
  intro rows
  induction rows with
  | nil => rfl
  | cons r t ih =>
    simp only [List.map_cons, List.filter_cons]
    have e0 : cellAt [A r, B r, C r] 0 = A r := rfl
    have e2 : cellAt [A r, B r, C r] 2 = C r := rfl
    rw [e0]
    by_cases hr : A r = a
    · rw [if_pos (by simp [hr]), if_pos (by simp [hr])]
      simp only [List.map_cons]
      rw [e2, ih]
    · rw [if_neg (by simp [hr]), if_neg (by simp [hr])]
      exact ih

/-- Claim C6: missing target values are replaced by 0 before partitioning:
entity `a`'s worker sees as its y column exactly the input's target values
for `a`'s rows, in order, with nulls already turned into 0. -/
theorem claim6_missing_target_zero (df : DataFrame) (uid ti tg : String)
    (iu it ig : Nat)
    (hu : idxOf? uid df.cols = some iu) (ht : idxOf? ti df.cols = some it)
    (hg : idxOf? tg df.cols = some ig)
    (h1 : uid ≠ ti) (h2 : uid ≠ tg) (h3 : ti ≠ tg) (h4 : uid ≠ "y")
    (dfts : DataFrame) (hp : prepare df uid ti tg = Except.ok dfts) (a : Value) :
    (dfts.getGroup uid a).getCol "y" =
      some (((df.rows.map (fun r => (cellAt r iu, fillVal (cellAt r ig)))).filter
        (fun p => decide (p.1 = a))).map (fun p => p.2)) := by
  have hpe := prepare_eq df uid ti tg iu it ig hu ht hg h1 h2 h3 h4
  rw [hp] at hpe
  injection hpe with hpe
  subst hpe
  have h0 : idxOf? uid [uid, "ds", "y"] = some 0 := by rw [idxOf?, if_pos rfl]
  have h2y : idxOf? "y" [uid, "ds", "y"] = some 2 := by
    have n : ¬uid = "y" := h4
    simp [idxOf?, n]
  rw [getCol_getGroup (preparedFrame df uid iu it ig) uid "y" a 0 2 h0 h2y]
  exact congrArg some (map_filter_three a _ _ _ df.rows)

/-- Witness for C6: entity A's rows `[(A, t1, None), (A, t2, 5)]` reach the
worker as `y = [0, 5]`. -/
theorem claim6_witness :
    ((preparedFrame dfEx "item" 0 1 2).getGroup "item" (Value.str "A")).getCol "y" =
      some [Value.num 0, Value.num 5] := by
  have h := claim6_missing_target_zero dfEx "item" "month" "sales" 0 1 2 rfl rfl rfl
    (by decide) (by decide) (by decide) (by decide)
    (preparedFrame dfEx "item" 0 1 2) rfl (Value.str "A")
  exact h.trans rfl

theorem dropCols_ok_requires (df : DataFrame) (cs : List String) (d : DataFrame)
    (h : df.dropCols cs = Except.ok d) : ∀ c ∈ cs, c ∈ df.cols := by
  unfold DataFrame.dropCols at h
  by_cases hc : ∀ c ∈ cs, c ∈ df.cols
  · exact hc
  · rw [if_neg hc] at h
    cases h

theorem worker_empty_of_bad_drop (P : ProphetSpec) (dfg : DataFrame) (uid : String)
    (dc : List String) (c : String) (uv : Value) (yc : List Value)
    (huv : uidValue dfg uid = some uv) (hyc : dfg.getCol "y" = some yc)
    (hc : c ∈ dc) (hco : c ∉ P.outCols) (hcu : c ≠ uid) :
    create_single_time_series P dfg uid dc = Except.ok (attachBounds dfg yc, []) := by
  cases htb : tryBody P (attachBounds dfg yc) uid uv dc with
  | error e => exact create_single_contains_failure P dfg uid dc uv yc e huv hyc htb
  | ok recs =>
    exfalso
    rcases tryBody_ok_inv P _ uid uv dc recs htb with ⟨f, prows, dfP2, _, _, hdr, _⟩
    have hnc : c ∉ ((DataFrame.mk P.outCols prows).setCol uid uv).cols := by
      intro hmem
      rcases setCol_cols_cases (DataFrame.mk P.outCols prows) uid c uv hmem with h | h
      · exact hco h
      · exact hcu h
    exact hnc (dropCols_ok_requires _ dc dfP2 hdr c hc)

/-- Claim C10: a drop_columns entry that names neither a prediction-output
column nor the entity column makes the drop raise inside every worker's
catch-all, so every entity silently contributes zero rows and the pipeline
returns an empty ResultTable instead of an error. -/
theorem claim10_bad_drop_empties_run (P : ProphetSpec) (df : DataFrame)
    (uid ti tg : String) (dc : List String) (c : String) (iu it ig : Nat)
    (hu : idxOf? uid df.cols = some iu) (ht : idxOf? ti df.cols = some it)
    (hg : idxOf? tg df.cols = some ig)
    (h1 : uid ≠ ti) (h2 : uid ≠ tg) (h3 : ti ≠ tg) (h4 : uid ≠ "y")
    (hc : c ∈ dc) (hco : c ∉ P.outCols) (hcu : c ≠ uid) :
    create_all_time_series P df uid ti tg dc =
      Except.ok (df, DataFrame.mk [] []) := by
  have hpe := prepare_eq df uid ti tg iu it ig hu ht hg h1 h2 h3 h4
  unfold create_all_time_series
  rw [hpe, ok_bind]
  have hall : ∀ g ∈ (preparedFrame df uid iu it ig).groupKeys uid,
      create_single_time_series P ((preparedFrame df uid iu it ig).getGroup uid g) uid dc
        = Except.ok
          (attachBounds ((preparedFrame df uid iu it ig).getGroup uid g)
            ((((preparedFrame df uid iu it ig).getGroup uid g).getCol "y").getD []),
           ([] : List RecRow)) := by
    intro g hg2
    have huv := uidValue_getGroup (preparedFrame df uid iu it ig) uid g hg2
    have hyin : "y" ∈ ((preparedFrame df uid iu it ig).getGroup uid g).cols := by
      rw [getGroup_cols]
      show "y" ∈ [uid, "ds", "y"]
      simp
    rcases getCol_isSome_of_mem _ "y" hyin with ⟨ys, hys⟩
    have hw := worker_empty_of_bad_drop P
      ((preparedFrame df uid iu it ig).getGroup uid g) uid dc c g ys huv hys hc hco hcu
    rw [hw, hys, Option.getD_some]
  rw [mapM_ok_of_all
    (fun g => create_single_time_series P
      ((preparedFrame df uid iu it ig).getGroup uid g) uid dc)
    (fun g => (attachBounds ((preparedFrame df uid iu it ig).getGroup uid g)
        ((((preparedFrame df uid iu it ig).getGroup uid g).getCol "y").getD []),
      ([] : List RecRow)))
    ((preparedFrame df uid iu it ig).groupKeys uid) hall, ok_bind]
  have hX : ((((preparedFrame df uid iu it ig).groupKeys uid).map
      (fun g => (attachBounds ((preparedFrame df uid iu it ig).getGroup uid g)
        ((((preparedFrame df uid iu it ig).getGroup uid g).getCol "y").getD []),
      ([] : List RecRow)))).map (fun o => o.2)).flatten = ([] : List RecRow) := by
    rw [List.map_map]
    have hcong : ∀ x ∈ (preparedFrame df uid iu it ig).groupKeys uid,
        ((fun o : DataFrame × List RecRow => o.2) ∘
          (fun g => (attachBounds ((preparedFrame df uid iu it ig).getGroup uid g)
            ((((preparedFrame df uid iu it ig).getGroup uid g).getCol "y").getD []),
          ([] : List RecRow)))) x = ([] : List RecRow) := fun x _ => rfl
    rw [List.map_congr_left hcong]
    simp
  rw [hX]
  rfl

/-- Witness for C10: the misspelled drop column `nope` silently empties the
whole run on the sample dataset. -/
theorem claim10_witness :
    create_all_time_series P0 dfEx "item" "month" "sales" ["nope"] =
      Except.ok (dfEx, DataFrame.mk [] []) :=
  claim10_bad_drop_empties_run P0 dfEx "item" "month" "sales" ["nope"] "nope" 0 1 2
    rfl rfl rfl (by decide) (by decide) (by decide) (by decide)
    (by decide) (by decide) (by decide)

/-- Claim C7 counterexample: a run that produces no prediction records
returns a table with no columns at all — in particular it does not carry the
input's entity, time, or target column names, falsifying the unconditional
round-trip claim (the model stand-in here even exposes canonical `ds`/`y`
fields and nothing is dropped). -/
theorem claim7_counterexample :
    create_all_time_series P0 dfEmpty "item" "month" "sales" [] =
      Except.ok (dfEmpty, DataFrame.mk [] []) ∧
    "item" ∈ dfEmpty.cols ∧ "month" ∈ dfEmpty.cols ∧ "sales" ∈ dfEmpty.cols ∧
    "item" ∉ (DataFrame.mk [] [] : DataFrame).cols ∧
    "month" ∉ (DataFrame.mk [] [] : DataFrame).cols ∧
    "sales" ∉ (DataFrame.mk [] [] : DataFrame).cols :=
  ⟨rfl, by decide, by decide, by decide, by decide, by decide, by decide⟩

/-- Claim C7 (amended): the rename is a round trip — for every run that
produces at least one prediction record, and whenever the model's prediction
schema carries the canonical `ds` and `y` fields and they are not dropped,
the produced ResultTable's columns contain the caller's entity, time and
target names, and the canonical names themselves no longer appear.  (A run
with no records returns a table with no columns at all.) -/
theorem claim7_rename_round_trip (P : ProphetSpec) (df : DataFrame)
    (uid ti tg : String) (dc : List String) (out : DataFrame × DataFrame)
    (hds_out : "ds" ∈ P.outCols) (hy_out : "y" ∈ P.outCols)
    (hds_dc : "ds" ∉ dc) (hy_dc : "y" ∉ dc) (huid_dc : uid ∉ dc)
    (h4 : uid ≠ "y") (h5 : uid ≠ "ds")
    (hti_ds : ti ≠ "ds") (hti_y : ti ≠ "y") (htg_ds : tg ≠ "ds") (htg_y : tg ≠ "y")
    (h : create_all_time_series P df uid ti tg dc = Except.ok out)
    (hne : out.2.rows ≠ []) :
    uid ∈ out.2.cols ∧ ti ∈ out.2.cols ∧ tg ∈ out.2.cols ∧
    "ds" ∉ out.2.cols ∧ "y" ∉ out.2.cols := by
  rcases create_all_ok_inv P df uid ti tg dc out h with ⟨dfts, outs, hp, hm, _, hout2⟩
  have hrecsne : ((outs.map (fun o => o.2)).flatten) ≠ [] := by
    intro h0
    apply hne
    rw [hout2, h0]
    rfl
  rcases List.exists_mem_of_ne_nil _ hrecsne with ⟨rec, hrec⟩
  rcases List.mem_flatten.mp hrec with ⟨l, hl, hrl⟩
  rcases List.mem_map.mp hl with ⟨o, ho, hleq⟩
  subst hleq
  rcases mapM_ok_mem _ _ _ hm o ho with ⟨gk, hgk, hwk⟩
  have hkeys := worker_record_keys P _ uid dc o.1 o.2 (by rw [hwk])
  rcases hkeys rec hrl with ⟨hnotdc, hkeep, huidk⟩
  have hds0 : "ds" ∈ (recordsToFrame ((outs.map (fun o => o.2)).flatten)).cols :=
    (recordsToFrame_cols_mem _ "ds").mpr ⟨rec, hrec, hkeep "ds" hds_out hds_dc⟩
  have hy0 : "y" ∈ (recordsToFrame ((outs.map (fun o => o.2)).flatten)).cols :=
    (recordsToFrame_cols_mem _ "y").mpr ⟨rec, hrec, hkeep "y" hy_out hy_dc⟩
  have hu0 : uid ∈ (recordsToFrame ((outs.map (fun o => o.2)).flatten)).cols :=
    (recordsToFrame_cols_mem _ uid).mpr ⟨rec, hrec, huidk huid_dc⟩
  rw [hout2]
  refine ⟨?_, ?_, ?_, ?_, ?_⟩
  · exact List.mem_map.mpr ⟨uid, hu0, outRename_other ti tg uid h5 h4⟩
  · exact List.mem_map.mpr ⟨"ds", hds0, rfl⟩
  · exact List.mem_map.mpr ⟨"y", hy0, rfl⟩
  · intro hmem
    rcases List.mem_map.mp hmem with ⟨k, hk0, hkeq⟩
    by_cases e1 : k = "ds"
    · subst e1
      rw [show outRename ti tg "ds" = ti from rfl] at hkeq
      exact hti_ds hkeq
    · by_cases e2 : k = "y"
      · subst e2
        rw [show outRename ti tg "y" = tg from rfl] at hkeq
        exact htg_ds hkeq
      · rw [outRename_other ti tg k e1 e2] at hkeq
        exact e1 hkeq
  · intro hmem
    rcases List.mem_map.mp hmem with ⟨k, hk0, hkeq⟩
    by_cases e1 : k = "ds"
    · subst e1
      rw [show outRename ti tg "ds" = ti from rfl] at hkeq
      exact hti_y hkeq
    · by_cases e2 : k = "y"
      · subst e2
        rw [show outRename ti tg "y" = tg from rfl] at hkeq
        exact htg_y hkeq
      · rw [outRename_other ti tg k e1 e2] at hkeq
        exact e2 hkeq

/-- Witness for C7: on the sample run the result carries `item`, `month`,
`sales` and no canonical `ds`/`y` columns. -/
theorem claim7_witness :
    "item" ∈ resEx.cols ∧ "month" ∈ resEx.cols ∧ "sales" ∈ resEx.cols ∧
    "ds" ∉ resEx.cols ∧ "y" ∉ resEx.cols :=
  claim7_rename_round_trip P0 dfEx "item" "month" "sales" [] (dfEx, resEx)
    (by decide) (by decide) (by decide) (by decide) (by decide)
    (by decide) (by decide) (by decide) (by decide) (by decide) (by decide)
    rfl (by decide)

end TS
